import Mathlib

/-!
Verification of the PII redaction engine (redactor.py and metrics.py).

Texts are modelled as `List Char`.  The Python `re` patterns used by the
detectors are modelled by a small backtracking matcher (`RE`, `matchEnds`)
whose alternation order and greediness follow the Python engine: the list
`matchEnds s fuel re i` holds all end positions of a match of `re`
starting at `i`, in backtracking preference order, so its head is the end
position the Python engine picks.  Floats are modelled as rationals.
-/

namespace Redactor

/-- Python \w: letters, digits and underscore (ASCII fragment). -/
def isWordChar (c : Char) : Bool := c.isAlphanum || c = '_'

/-- Python \s (ASCII fragment, as used by the patterns here). -/
def isSpaceChar (c : Char) : Bool := c.isWhitespace

/-- Regex abstract syntax: empty word, character predicate, word boundary,
concatenation, prefer-left alternation, and greedy bounded repetition
(`max = none` means unbounded). -/
inductive RE where
  | eps : RE
  | pred (p : Char → Bool) : RE
  | wordB : RE
  | cat (a b : RE) : RE
  | alt (a b : RE) : RE
  | rep (mn : Nat) (mx : Option Nat) (a : RE) : RE

/-- Is the character before position `i` a word character? -/
def prevIsWord (s : List Char) : Nat → Bool
  | 0 => false
  | j + 1 => isWordChar (s.getD j ' ')

/-- Is the character at position `i` a word character? -/
def curIsWord (s : List Char) (i : Nat) : Bool :=
  if i < s.length then isWordChar (s.getD i ' ') else false

/-- Python \b holds where exactly one side of the position is a word char. -/
def isBoundary (s : List Char) (i : Nat) : Bool :=
  prevIsWord s i != curIsWord s i

/-- All end positions of a match of `re` in `s` starting at position `i`,
in backtracking preference order (greedy repetitions, left alternative
first), cut off at recursion depth `fuel`. -/
def matchEnds (s : List Char) : Nat → RE → Nat → List Nat
  | 0, _, _ => []
  | _ + 1, .eps, i => [i]
  | _ + 1, .pred p, i =>
      if i < s.length then (if p (s.getD i ' ') then [i + 1] else []) else []
  | _ + 1, .wordB, i => if isBoundary s i then [i] else []
  | fuel + 1, .cat a b, i =>
      (matchEnds s fuel a i).flatMap (fun j => matchEnds s fuel b j)
  | fuel + 1, .alt a b, i =>
      matchEnds s fuel a i ++ matchEnds s fuel b i
  | fuel + 1, .rep mn mx a, i =>
      if mx = some 0 then (if mn = 0 then [i] else [])
      else
        let deeper := (matchEnds s fuel a i).flatMap
          (fun j => matchEnds s fuel (.rep (mn - 1) (mx.map (fun m => m - 1)) a) j)
        if mn = 0 then deeper ++ [i] else deeper

/-- A recursion-depth bound large enough for `matchEnds` to explore every
path of the patterns used here over a string of length `n`. -/
def depthBound (n : Nat) : RE → Nat
  | .eps => 1
  | .pred _ => 1
  | .wordB => 1
  | .cat a b => 1 + max (depthBound n a) (depthBound n b)
  | .alt a b => 1 + max (depthBound n a) (depthBound n b)
  | .rep _ mx a =>
      let iters := match mx with | some m => m | none => n + 1
      1 + (iters + 1) * (1 + depthBound n a)

/-- Fuel used when running `re` against `s`. -/
def fuelFor (s : List Char) (re : RE) : Nat := depthBound s.length re + 1

/-- First match of `re` at a position in `[i, i+k)`; returns (start, end).
Models the scan loop of Python re.search. -/
def searchAux (s : List Char) (fuel : Nat) (re : RE) : Nat → Nat → Option (Nat × Nat)
  | 0, _ => none
  | k + 1, i =>
      match matchEnds s fuel re i with
      | e :: _ => some (i, e)
      | [] => searchAux s fuel re k (i + 1)

/-- Python re.search: leftmost match, greedy end. -/
def search (s : List Char) (re : RE) : Option (Nat × Nat) :=
  searchAux s (fuelFor s re) re (s.length + 1) 0

/-- Python re.fullmatch: some backtracking path consumes the whole string. -/
def fullmatchB (s : List Char) (re : RE) : Bool :=
  (matchEnds s (fuelFor s re) re 0).any (fun j => j = s.length)

/-- Iterated scan of Python re.finditer: after a match ending at `e` the
scan resumes at `e` (or `e+1` when the match was empty). -/
def finditerAux (s : List Char) (fuel : Nat) (re : RE) : Nat → Nat → List (Nat × Nat)
  | 0, _ => []
  | k + 1, i =>
      match searchAux s fuel re (s.length + 1 - i) i with
      | none => []
      | some (b, e) =>
          (b, e) :: finditerAux s fuel re k (if b = e then e + 1 else e)

/-- Python re.finditer: all non-overlapping matches, left to right. -/
def finditer (s : List Char) (re : RE) : List (Nat × Nat) :=
  finditerAux s (fuelFor s re) re (s.length + 2) 0

/-- Single literal character. -/
def chr (c : Char) : RE := .pred (fun x => x = c)

/-- Single literal character, case-insensitive. -/
def chrCI (c : Char) : RE := .pred (fun x => x.toLower = c.toLower)

/-- Digit class \d. -/
def digitR : RE := .pred Char.isDigit

/-- Concatenation of a list of regexes. -/
def seqR (l : List RE) : RE := l.foldr .cat .eps

/-- Literal string. -/
def strR (t : String) : RE := seqR (t.data.map chr)

/-- Literal string, case-insensitive. -/
def strCI (t : String) : RE := seqR (t.data.map chrCI)

/-- Alternation of a list, preferring earlier entries. -/
def altL : List RE → RE
  | [] => .pred (fun _ => false)
  | [x] => x
  | x :: y :: rest => .alt x (altL (y :: rest))

/-- Exactly n repetitions. -/
def repn (n : Nat) (a : RE) : RE := .rep n (some n) a

/-- One or more repetitions, greedy. -/
def plusR (a : RE) : RE := .rep 1 none a

/-- Zero or more repetitions, greedy. -/
def starR (a : RE) : RE := .rep 0 none a

/-- Zero or one repetition, greedy. -/
def optR (a : RE) : RE := .rep 0 (some 1) a

-- ---------------------------------------------------------------
-- The regex patterns of redactor.py
-- ---------------------------------------------------------------

/-- FILLER_PATTERN = \b(?:um+|hmm+|uh+|ah+|erm+)\b, IGNORECASE. -/
def FILLER_PATTERN : RE :=
  seqR [.wordB,
        altL [seqR [chrCI 'u', plusR (chrCI 'm')],
              seqR [chrCI 'h', chrCI 'm', plusR (chrCI 'm')],
              seqR [chrCI 'u', plusR (chrCI 'h')],
              seqR [chrCI 'a', plusR (chrCI 'h')],
              seqR [chrCI 'e', chrCI 'r', plusR (chrCI 'm')]],
        .wordB]

/-- The year-century alternative (19|20) used by the DOB patterns. -/
def century : RE := .alt (strR "19") (strR "20")

/-- First DOB pattern: \b(19|20)\d{2}-\d{2}-\d{2}\b. -/
def DOB_PAT1 : RE :=
  seqR [.wordB, century, repn 2 digitR, chr '-', repn 2 digitR, chr '-',
        repn 2 digitR, .wordB]

/-- Second DOB pattern: \b\d{2}/\d{2}/(19|20)\d{2}\b. -/
def DOB_PAT2 : RE :=
  seqR [.wordB, repn 2 digitR, chr '/', repn 2 digitR, chr '/', century,
        repn 2 digitR, .wordB]

/-- Third DOB pattern: \b\d{2}-\d{2}-(19|20)\d{2}\b. -/
def DOB_PAT3 : RE :=
  seqR [.wordB, repn 2 digitR, chr '-', repn 2 digitR, chr '-', century,
        repn 2 digitR, .wordB]

/-- Spelled month alternation of the fourth DOB pattern.  The source writes
`Nov(?:ember)` without the optional marker, so only the full word November
is accepted for that month; this is preserved. -/
def monthR : RE :=
  altL [seqR [strR "Jan", optR (strR "uary")],
        seqR [strR "Feb", optR (strR "ruary")],
        seqR [strR "Mar", optR (strR "ch")],
        seqR [strR "Apr", optR (strR "il")],
        strR "May",
        seqR [strR "Jun", optR (strR "e")],
        seqR [strR "Jul", optR (strR "y")],
        seqR [strR "Aug", optR (strR "ust")],
        seqR [strR "Sep", optR (strR "tember")],
        seqR [strR "Oct", optR (strR "ober")],
        seqR [strR "Nov", strR "ember"],
        seqR [strR "Dec", optR (strR "ember")]]

/-- Fourth DOB pattern: \b(month)\s\d{1,2},\s(19|20)\d{2}\b. -/
def DOB_PAT4 : RE :=
  seqR [.wordB, monthR, .pred isSpaceChar, .rep 1 (some 2) digitR, chr ',',
        .pred isSpaceChar, century, repn 2 digitR, .wordB]

/-- PII_PATTERNS["DATE_OF_BIRTH"], in source order. -/
def PII_PATTERNS_DOB : List RE := [DOB_PAT1, DOB_PAT2, DOB_PAT3, DOB_PAT4]

/-- Character class [\w\.-]. -/
def emailCls : RE := .pred (fun c => isWordChar c || c = '.' || c = '-')

/-- EMAIL_PATTERN = \b[\w\.-]+@[\w\.-]+\.\w+\b. -/
def EMAIL_PATTERN : RE :=
  seqR [.wordB, plusR emailCls, chr '@', plusR emailCls, chr '.',
        plusR (.pred isWordChar), .wordB]

/-- Separator class [-.\s] of the phone pattern. -/
def phoneSep : RE := .pred (fun c => c = '-' || c = '.' || isSpaceChar c)

/-- PHONE_PATTERN (VERBOSE): \b(?:\+1[-.\s]?|1[-.\s]?)?(?:\(\d{3}\)|\d{3})
[-.\s]?\d{3}[-.\s]?\d{4}(?:\s*(?:x|ext\.?)\s*\d{1,5})?\b. -/
def PHONE_PATTERN : RE :=
  seqR [.wordB,
        optR (.alt (seqR [chr '+', chr '1', optR phoneSep])
                   (seqR [chr '1', optR phoneSep])),
        .alt (seqR [chr '(', repn 3 digitR, chr ')']) (repn 3 digitR),
        optR phoneSep, repn 3 digitR, optR phoneSep, repn 4 digitR,
        optR (seqR [starR (.pred isSpaceChar),
                    .alt (chr 'x') (seqR [strR "ext", optR (chr '.')]),
                    starR (.pred isSpaceChar), .rep 1 (some 5) digitR]),
        .wordB]

/-- SSN_PATTERN = \b\d{3}-\d{2}-\d{4}\b. -/
def SSN_PATTERN : RE :=
  seqR [.wordB, repn 3 digitR, chr '-', repn 2 digitR, chr '-',
        repn 4 digitR, .wordB]

/-- Street-name word class of the address patterns: letters, digits,
the apostrophe character and the dot. -/
def streetCls : RE :=
  .pred (fun c => c.isAlpha || c.isDigit || c = Char.ofNat 39 || c = '.')

/-- Street suffix alternation of the first address pattern, IGNORECASE. -/
def streetSuffix : RE :=
  altL [strCI "Street", strCI "St", strCI "Road", strCI "Rd",
        strCI "Avenue", strCI "Ave", strCI "Boulevard", strCI "Blvd",
        strCI "Lane", strCI "Ln", strCI "Drive", strCI "Dr",
        strCI "Court", strCI "Ct", strCI "Place", strCI "Pl",
        strCI "Terrace", strCI "Ter", strCI "Way", strCI "Highway",
        strCI "Hwy"]

/-- First address pattern: a house number of one to six digits, then
one to six street words over `streetCls`, then a street suffix, inside
word boundaries. -/
def ADDRESS_PAT1 : RE :=
  seqR [.wordB, .rep 1 (some 6) digitR, plusR (.pred isSpaceChar),
        .rep 1 (some 6) (seqR [plusR streetCls, .pred isSpaceChar]),
        streetSuffix, .wordB]

/-- Directional alternation of the second address pattern, IGNORECASE. -/
def directionR : RE :=
  altL [strCI "North", strCI "N", strCI "South", strCI "S",
        strCI "East", strCI "E", strCI "West", strCI "W",
        strCI "NE", strCI "NW", strCI "SE", strCI "SW"]

/-- Second address pattern:
a house number, a directional word, one street word over `streetCls`,
and a short street-suffix alternation, inside word boundaries. -/
def ADDRESS_PAT2 : RE :=
  seqR [.wordB, .rep 1 (some 6) digitR, plusR (.pred isSpaceChar),
        directionR, plusR (.pred isSpaceChar),
        plusR streetCls, plusR (.pred isSpaceChar),
        altL [strCI "St", strCI "Street", strCI "Rd", strCI "Road",
              strCI "Ave", strCI "Avenue", strCI "Blvd", strCI "Boulevard",
              strCI "Ln", strCI "Lane"],
        .wordB]

/-- ADDRESS_PATTERNS, in source order. -/
def ADDRESS_PATTERNS : List RE := [ADDRESS_PAT1, ADDRESS_PAT2]

/-- DOB_ANCHORS = [\bDOB\b, \bDate of birth\b, \bborn on\b], IGNORECASE. -/
def DOB_ANCHORS : List RE :=
  [seqR [.wordB, strCI "DOB", .wordB],
   seqR [.wordB, strCI "Date of birth", .wordB],
   seqR [.wordB, strCI "born on", .wordB]]

/-- Digit date shape of accept_entity: one or two digits, a slash or dash,
one or two digits, a slash or dash, then two to four digits. -/
def DOB_DIGIT_PATTERN : RE :=
  seqR [.rep 1 (some 2) digitR, .pred (fun c => c = '/' || c = '-'),
        .rep 1 (some 2) digitR, .pred (fun c => c = '/' || c = '-'),
        .rep 2 (some 4) digitR]

-- ---------------------------------------------------------------
-- Configuration and helper functions of redactor.py
-- ---------------------------------------------------------------

/-- TARGET_PII_TYPES of redactor.py (a set; only membership is used). -/
def TARGET_PII_TYPES : List String :=
  ["NAME", "ADDRESS", "PHONE", "EMAIL", "DATE_OF_BIRTH", "SSN"]

/-- TYPE_MAP of redactor.py. -/
def TYPE_MAP : List (String × String) :=
  [("EMAIL_ADDRESS", "EMAIL"), ("PHONE_NUMBER", "PHONE")]

/-- MASK_CHAR of redactor.py. -/
def MASK_CHAR : Char := '*'

/-- The rational one half, i.e. the default pattern confidence 0.5 of the
source, written in reduced constructor form (the rational-arithmetic
functions of the library are irreducible, so this form keeps concrete
runs of the pipeline kernel-computable). -/
def half : ℚ := ⟨1, 2, by decide, by decide⟩

/-- The rational three tenths (0.3), in reduced constructor form. -/
def q3o10 : ℚ := ⟨3, 10, by decide, by decide⟩

/-- The rational seven tenths (0.7), in reduced constructor form. -/
def q7o10 : ℚ := ⟨7, 10, by decide, by decide⟩

/-- The rational nine tenths (0.9), in reduced constructor form. -/
def q9o10 : ℚ := ⟨9, 10, by decide, by decide⟩

/-- normalize_type: TYPE_MAP.get(ent_type, ent_type). -/
def normalize_type (ent_type : String) : String :=
  ((TYPE_MAP.lookup ent_type).getD ent_type)

/-- Python str.isalnum, on the ASCII fragment the development uses. -/
def isAlnum (c : Char) : Bool := c.isAlphanum

/-- Python slice text[b:e] (with the clamping slice semantics). -/
def slice (l : List Char) (b e : Nat) : List Char := (l.take e).drop b

/-- Does position `i` lie in the half-open span `p`? -/
def inSpan (i : Nat) (p : Nat × Nat) : Bool := decide (p.1 ≤ i) && decide (i < p.2)

/-- remove_fillers: every filler match is replaced by same-length
whitespace, so offsets computed on the cleaned text stay valid. -/
def remove_fillers (text : List Char) : List Char :=
  let spans := finditer text FILLER_PATTERN
  (List.range text.length).map
    (fun i => if spans.any (inSpan i) then ' ' else text.getD i ' ')

/-- Indices of the alphanumeric characters of a string
(the list comprehension of format_preserving_mask). -/
def alnum_indices (value : List Char) : List Nat :=
  (List.range value.length).filter (fun i => isAlnum (value.getD i ' '))

/-- The ≤ 2 alphanumerics branch: mask every alphanumeric character. -/
def maskAllAlnum (value : List Char) : List Char :=
  value.map (fun c => if isAlnum c then MASK_CHAR else c)

/-- format_preserving_mask of redactor.py: keep the first and last
alphanumeric character when there are more than two of them, mask the
alphanumerics in between, and leave every non-alphanumeric character
unchanged; with at most two alphanumerics, mask them all. -/
def format_preserving_mask (value : List Char) : List Char :=
  if value = [] then value
  else if (alnum_indices value).length ≤ 2 then maskAllAlnum value
  else
    (List.range value.length).map
      (fun i => if i ∈ ((alnum_indices value).drop 1).dropLast then MASK_CHAR
                else value.getD i ' ')

/-- Is `i` the position of the first alphanumeric character of `v`? -/
def firstAlnum (v : List Char) (i : Nat) : Prop :=
  isAlnum (v.getD i ' ') = true ∧
    ∀ j, j < i → ¬ isAlnum (v.getD j ' ') = true

/-- Is `i` the position of the last alphanumeric character of `v`? -/
def lastAlnum (v : List Char) (i : Nat) : Prop :=
  isAlnum (v.getD i ' ') = true ∧
    ∀ j, j < v.length → i < j → ¬ isAlnum (v.getD j ' ') = true

instance (v : List Char) (i : Nat) : Decidable (firstAlnum v i) := by
  unfold firstAlnum; infer_instance

instance (v : List Char) (i : Nat) : Decidable (lastAlnum v i) := by
  unfold lastAlnum; infer_instance

/-- A merged entity of the detection pipeline.  `Anchored` is only set by
the DOB fallback detector (the Python dict has the key only there). -/
structure Entity where
  Type' : String
  Text : List Char
  Confidence : ℚ
  BeginOffset : Nat
  EndOffset : Nat
  Source : String
  Anchored : Option Bool := none
deriving DecidableEq

/-- accept_entity of redactor.py.  Defined in the source; the active
pipeline never calls it. -/
def accept_entity (ent : Entity) : Bool :=
  if ent.Type' = "SSN" then fullmatchB ent.Text SSN_PATTERN
  else if ent.Type' = "PHONE" then (search ent.Text PHONE_PATTERN).isSome
  else if ent.Type' = "DATE_OF_BIRTH" then
    (search ent.Text DOB_DIGIT_PATTERN).isSome
  else true

/-- detect_dob_entities of redactor.py: all matches of the four DOB
patterns over the (cleaned) sentence, each carrying the caller-supplied
confidence and an anchor flag. -/
def detect_dob_entities (sentence : List Char) (confidence : ℚ) : List Entity :=
  let anchors := DOB_ANCHORS.any (fun a => (search sentence a).isSome)
  PII_PATTERNS_DOB.flatMap (fun pat =>
    (finditer sentence pat).map (fun be =>
      { Type' := "DATE_OF_BIRTH", Text := slice sentence be.1 be.2,
        Confidence := confidence, BeginOffset := be.1, EndOffset := be.2,
        Source := "regex_fallback", Anchored := some anchors }))

/-- extract_regex_entities of redactor.py: EMAIL, PHONE, SSN then the two
ADDRESS patterns, each match with fixed confidence 0.5. -/
def extract_regex_entities (text : List Char) : List Entity :=
  ([(EMAIL_PATTERN, "EMAIL"), (PHONE_PATTERN, "PHONE"),
    (SSN_PATTERN, "SSN")] ++ ADDRESS_PATTERNS.map (fun p => (p, "ADDRESS"))
  ).flatMap (fun pt =>
    (finditer text pt.1).map (fun be =>
      { Type' := pt.2, Text := slice text be.1 be.2, Confidence := half,
        BeginOffset := be.1, EndOffset := be.2, Source := "regex_fallback" }))

-- ---------------------------------------------------------------
-- The core pipeline mask_pii_with_comprehend
-- ---------------------------------------------------------------

/-- One entity of the primary remote NER (AWS Comprehend) response. -/
structure AwsEnt where
  Type' : String
  Score : ℚ
  BeginOffset : Nat
  EndOffset : Nat
deriving DecidableEq

/-- Python round-half-to-even of `q * 1000`, computed on the numerator
and denominator so that it reduces in the kernel: with `n = 1000·num q`
and `d = den q`, the floor is `Int.fdiv n d` and the fractional part
`r = n - f·d ∈ [0, d)` is compared against one half via `2r` vs `d`. -/
def round_half_even3 (q : ℚ) : ℤ :=
  let n := q.num * 1000
  let d : ℤ := (q.den : ℤ)
  let f := Int.fdiv n d
  let r2 := 2 * (n - f * d)
  if r2 < d then f
  else if d < r2 then f + 1
  else if f % 2 = 0 then f else f + 1

/-- round(x, 3) of the score handling: the nearest (ties-to-even)
multiple of 1/1000. -/
def round3 (q : ℚ) : ℚ := mkRat (round_half_even3 q) 1000

/-- The try/except around the Comprehend call: any exception is treated
as an empty entity list. -/
def awsEntitiesOf (resp : Except Unit (List AwsEnt)) : List AwsEnt :=
  match resp with
  | .ok es => es
  | .error _ => []

/-- The primary-detector stage: keep response entities whose normalized
type is targeted and whose rounded score reaches the threshold; the
entity text is sliced out of the original (unclean) sentence. -/
def primaryFiltered (sent : List Char) (aws : List AwsEnt)
    (min_confidence : ℚ) : List Entity :=
  aws.filterMap (fun e =>
    let ent_type := normalize_type e.Type'
    let score := round3 e.Score
    if ent_type ∈ TARGET_PII_TYPES ∧ min_confidence ≤ score then
      some { Type' := ent_type, Text := slice sent e.BeginOffset e.EndOffset,
             Confidence := score, BeginOffset := e.BeginOffset,
             EndOffset := e.EndOffset, Source := "comprehend" }
    else none)

/-- The DOB fallback stage: append the pattern detector output only when
no DATE_OF_BIRTH entity is present (no acceptance filter is applied). -/
def dobStage (clean : List Char) (entities : List Entity)
    (min_confidence : ℚ) : List Entity :=
  if entities.any (fun e => e.Type' = "DATE_OF_BIRTH") then entities
  else entities ++ detect_dob_entities clean min_confidence

/-- The full merged entity list handed to the masker: primary entities
surviving the threshold, the conditional DOB fallback, then the
unconditional EMAIL/PHONE/SSN/ADDRESS pattern entities. -/
def mergedEntities (sent : List Char) (aws : List AwsEnt)
    (min_confidence : ℚ) : List Entity :=
  dobStage (remove_fillers sent) (primaryFiltered sent aws min_confidence)
      min_confidence
    ++ extract_regex_entities (remove_fillers sent)

/-- One audit row (the timestamp is an external clock value, passed in). -/
structure AuditRow where
  verbatim_id : Nat
  pii_type : String
  original : List Char
  masked : List Char
  confidence : ℚ
  source : String
  timestamp : String
deriving DecidableEq

/-- One splice step of the masking loop: replace the span of `e` by its
format-preserving mask and append the audit row. -/
def maskStep (vid : Nat) (now : String) (acc : List Char × List AuditRow)
    (e : Entity) : List Char × List AuditRow :=
  let m := format_preserving_mask e.Text
  ((acc.1.take e.BeginOffset) ++ m ++ (acc.1.drop e.EndOffset),
   acc.2 ++ [{ verbatim_id := vid, pii_type := e.Type', original := e.Text,
               masked := m, confidence := e.Confidence, source := e.Source,
               timestamp := now }])

/-- Well-formedness of an entity against a text of length `L`: its text
is exactly as long as its span, and the span lies inside the text. -/
def entWF (L : Nat) (ent : Entity) : Prop :=
  ent.Text.length = ent.EndOffset - ent.BeginOffset
    ∧ ent.BeginOffset ≤ ent.EndOffset ∧ ent.EndOffset ≤ L

/-- Descending-BeginOffset comparison used by the masking sort
(`sorted(..., reverse=True)` is stable; so is insertionSort). -/
def byBeginDesc (a b : Entity) : Prop := b.BeginOffset ≤ a.BeginOffset

instance : DecidableRel byBeginDesc := fun a b =>
  inferInstanceAs (Decidable (b.BeginOffset ≤ a.BeginOffset))

/-- The per-record body of mask_pii_with_comprehend: build the merged
entity list from the primary response and mask back to front. -/
def processRecord (now : String) (min_confidence : ℚ)
    (resp : Except Unit (List AwsEnt)) (sent : List Char) (vid : Nat) :
    List Char × List AuditRow :=
  ((mergedEntities sent (awsEntitiesOf resp) min_confidence).insertionSort
      byBeginDesc).foldl (maskStep vid now) (sent, [])

/-- An input record: a sentence (empty when the key is missing) and an
optional verbatim id. -/
structure Rec where
  sentence : List Char
  verbatim_id : Option Nat
deriving DecidableEq

/-- mask_pii_with_comprehend of redactor.py, with the Comprehend
collaborator passed as `detect` and the clock value as `now`: records
with an empty sentence or a missing verbatim_id are skipped unchanged;
the others get their sentence replaced by the masked text, and their
audit rows are appended in record order. -/
def mask_pii_with_comprehend (detect : List Char → Except Unit (List AwsEnt))
    (now : String) (records : List Rec) (min_confidence : ℚ) :
    List Rec × List AuditRow :=
  match records with
  | [] => ([], [])
  | r :: rest =>
      if r.sentence = [] ∨ r.verbatim_id = none then
        (r :: (mask_pii_with_comprehend detect now rest min_confidence).1,
         (mask_pii_with_comprehend detect now rest min_confidence).2)
      else
        match r.verbatim_id with
        | none =>
            (r :: (mask_pii_with_comprehend detect now rest min_confidence).1,
             (mask_pii_with_comprehend detect now rest min_confidence).2)
        | some vid =>
            ({ r with sentence := (processRecord now min_confidence
                  (detect (remove_fillers r.sentence)) r.sentence vid).1 }
               :: (mask_pii_with_comprehend detect now rest min_confidence).1,
             (processRecord now min_confidence
                  (detect (remove_fillers r.sentence)) r.sentence vid).2
               ++ (mask_pii_with_comprehend detect now rest min_confidence).2)

end Redactor

namespace Metrics

/-- PII_CANONICAL of metrics.py: alias to canonical type. -/
def PII_CANONICAL : List (String × String) :=
  [("DOB", "DOB"), ("DATE_OF_BIRTH", "DOB"), ("BIRTH_DATE", "DOB"),
   ("EMAIL", "EMAIL"), ("EMAIL_ADDRESS", "EMAIL"),
   ("PHONE", "PHONE"), ("PHONE_NUMBER", "PHONE"),
   ("SSN", "SSN")]

/-- The helper `_canonical` of metrics.py: upper-case, then look up the
alias table, unmapped labels pass through upper-cased. -/
def _canonical (t : String) : String :=
  (PII_CANONICAL.lookup t.toUpper).getD t.toUpper

/-- HONORIFIC_RE = \b(?:Mr|Mrs|Ms|Dr)\.\s*, IGNORECASE. -/
def HONORIFIC_RE : Redactor.RE :=
  Redactor.seqR [.wordB,
    Redactor.altL [Redactor.strCI "Mr", Redactor.strCI "Mrs",
                   Redactor.strCI "Ms", Redactor.strCI "Dr"],
    Redactor.chr '.', Redactor.starR (.pred Redactor.isSpaceChar)]

/-- Python str.strip(): drop whitespace at both ends. -/
def strip (l : List Char) : List Char :=
  ((l.dropWhile Redactor.isSpaceChar).reverse.dropWhile
    Redactor.isSpaceChar).reverse

/-- HONORIFIC_RE.sub with the empty string followed by .strip(): remove
every honorific match, then trim whitespace. -/
def stripHonorifics (v : String) : String :=
  let s := v.data
  let spans := Redactor.finditer s HONORIFIC_RE
  String.mk (strip ((List.range s.length).filterMap
    (fun i => if spans.any (Redactor.inSpan i) then none
              else some (s.getD i ' '))))

/-- One ground-truth entity `{type, value}`. -/
structure GTEntity where
  type : String
  value : String
deriving DecidableEq

/-- One ground-truth record of the uploaded file. -/
structure GTRecord where
  verbatim_id : Nat
  ground_truth : List GTEntity
deriving DecidableEq

/-- One parsed audit-CSV row, restricted to the columns the scorer reads. -/
structure PredRow where
  verbatim_id : Nat
  pii_type : String
  original : String
deriving DecidableEq

/-- The canonical ground-truth pair of one entity: canonical type, and for
NAME the honorific-stripped value. -/
def gtPair (e : GTEntity) : String × String :=
  let t := _canonical e.type
  (t, if t = "NAME" then stripHonorifics e.value else e.value)

/-- The ground-truth set of one record. -/
def gtSet (rec : GTRecord) : Finset (String × String) :=
  (rec.ground_truth.map gtPair).toFinset

/-- The predicted set of one record: canonical audit types paired with
the audit original text, restricted to the same verbatim_id. -/
def prSet (audit : List PredRow) (vid : Nat) : Finset (String × String) :=
  ((audit.filter (fun r => r.verbatim_id = vid)).map
    (fun r => (_canonical r.pii_type, r.original))).toFinset

/-- The result record appended by `_compute_accuracy`. -/
structure AccuracyResult where
  TP : Nat
  FP : Nat
  FN : Nat
  precision : ℚ
  recall' : ℚ
  f1 : ℚ
deriving DecidableEq

/-- The accumulation loop of `_compute_accuracy` over the records. -/
def tallyLoop (audit : List PredRow) (data : List GTRecord)
    (acc : Nat × Nat × Nat) : Nat × Nat × Nat :=
  data.foldl (fun acc rec =>
    let gt := gtSet rec
    let pr := prSet audit rec.verbatim_id
    (acc.1 + (gt ∩ pr).card, acc.2.1 + (pr \ gt).card,
     acc.2.2 + (gt \ pr).card)) acc

/-- The guarded precision ratio: TP/(TP+FP), 0 when the denominator is 0. -/
def precisionOf (TP FP : Nat) : ℚ :=
  if TP + FP = 0 then 0 else (TP : ℚ) / ((TP : ℚ) + (FP : ℚ))

/-- The guarded recall ratio: TP/(TP+FN), 0 when the denominator is 0. -/
def recallOf (TP FN : Nat) : ℚ :=
  if TP + FN = 0 then 0 else (TP : ℚ) / ((TP : ℚ) + (FN : ℚ))

/-- The guarded F1 ratio: 2PR/(P+R), 0 when P+R is 0. -/
def f1Of (p r : ℚ) : ℚ :=
  if p + r = 0 then 0 else 2 * p * r / (p + r)

/-- The scorer `_compute_accuracy` of metrics.py on parsed inputs: strict set
intersection and differences summed over records, then the guarded
precision, recall and F1 ratios. -/
def _compute_accuracy (data : List GTRecord) (audit : List PredRow) :
    AccuracyResult :=
  { TP := (tallyLoop audit data (0, 0, 0)).1,
    FP := (tallyLoop audit data (0, 0, 0)).2.1,
    FN := (tallyLoop audit data (0, 0, 0)).2.2,
    precision := precisionOf (tallyLoop audit data (0, 0, 0)).1
      (tallyLoop audit data (0, 0, 0)).2.1,
    recall' := recallOf (tallyLoop audit data (0, 0, 0)).1
      (tallyLoop audit data (0, 0, 0)).2.2,
    f1 := f1Of
      (precisionOf (tallyLoop audit data (0, 0, 0)).1
        (tallyLoop audit data (0, 0, 0)).2.1)
      (recallOf (tallyLoop audit data (0, 0, 0)).1
        (tallyLoop audit data (0, 0, 0)).2.2) }

end Metrics

namespace Redactor

-- ---------------------------------------------------------------
-- Lemmas about format_preserving_mask
-- ---------------------------------------------------------------

lemma maskAllAlnum_length (v : List Char) :
    (maskAllAlnum v).length = v.length := List.length_map v _

lemma format_preserving_mask_length (v : List Char) :
    (format_preserving_mask v).length = v.length := by
  unfold format_preserving_mask
  split
  · rfl
  · split
    · exact maskAllAlnum_length v
    · simp

lemma mem_alnum_indices {v : List Char} {i : Nat} :
    i ∈ alnum_indices v ↔ i < v.length ∧ isAlnum (v.getD i ' ') = true := by
  simp [alnum_indices, List.mem_filter, List.mem_range]

lemma alnum_indices_sorted (v : List Char) :
    (alnum_indices v).Sorted (· < ·) :=
  (List.sorted_lt_range _).filter _

lemma alnum_indices_nodup (v : List Char) :
    (alnum_indices v).Nodup :=
  (alnum_indices_sorted v).nodup

lemma alnum_indices_cons (c : Char) (v : List Char) :
    alnum_indices (c :: v) =
      (if isAlnum c then [0] else []) ++ (alnum_indices v).map (· + 1) := by
  have hq : ((fun i => isAlnum ((c :: v).getD i ' ')) ∘ Nat.succ)
      = (fun j => isAlnum (v.getD j ' ')) := by
    funext j; rfl
  have hsucc : (Nat.succ : Nat → Nat) = (· + 1) := by funext j; rfl
  unfold alnum_indices
  rw [List.length_cons, List.range_succ_eq_map, List.filter_cons,
      List.filter_map, hq, hsucc]
  cases hc : isAlnum c <;> simp [hc]

lemma alnum_indices_length (v : List Char) :
    (alnum_indices v).length = (v.filter (fun c => isAlnum c)).length := by
  induction v with
  | nil => rfl
  | cons c v ih =>
      cases hc : isAlnum c <;>
        simp [alnum_indices_cons, hc, List.filter_cons, ih]

lemma format_preserving_mask_getD (v : List Char) (i : Nat)
    (h : i < v.length) :
    (format_preserving_mask v).getD i ' ' =
      if (alnum_indices v).length ≤ 2 then
        (if isAlnum (v.getD i ' ') then MASK_CHAR else v.getD i ' ')
      else
        (if i ∈ ((alnum_indices v).drop 1).dropLast then MASK_CHAR
         else v.getD i ' ') := by
  have hne : v ≠ [] := by
    intro hv; rw [hv] at h; exact absurd h (by simp)
  unfold format_preserving_mask
  rw [if_neg hne]
  split
  · have h1 : i < (maskAllAlnum v).length := by
      rw [maskAllAlnum_length]; exact h
    rw [List.getD_eq_getElem _ _ h1, List.getD_eq_getElem _ _ h]
    simp [maskAllAlnum]
  · have h1 : i < ((List.range v.length).map
        (fun i => if i ∈ ((alnum_indices v).drop 1).dropLast then MASK_CHAR
                  else v.getD i ' ')).length := by
      simpa using h
    rw [List.getD_eq_getElem _ _ h1]
    simp

lemma sorted_head?_le {l : List Nat} (hs : l.Sorted (· < ·)) {a j : Nat}
    (ha : l.head? = some a) (hj : j ∈ l) : a ≤ j := by
  cases l with
  | nil => cases hj
  | cons b t =>
      have hba : b = a := by simpa using ha
      subst hba
      rcases List.mem_cons.mp hj with h | h
      · exact le_of_eq h.symm
      · exact le_of_lt ((List.rel_of_sorted_cons hs) _ h)

lemma sorted_le_getLast? :
    ∀ {l : List Nat}, l.Sorted (· < ·) → ∀ {a : Nat},
      l.getLast? = some a → ∀ j ∈ l, j ≤ a := by
  intro l
  induction l with
  | nil => intro _ a ha j hj; cases hj
  | cons b t ih =>
      intro hs a ha j hj
      cases t with
      | nil =>
          have hba : b = a := by simpa using ha
          have hjb : j = b := by simpa using hj
          omega
      | cons c u =>
          have ha' : (c :: u).getLast? = some a := by
            simpa [List.getLast?_cons_cons] using ha
          rcases List.mem_cons.mp hj with h | h
          · subst h
            have hc : c ∈ c :: u := List.mem_cons_self _ _
            have hca : c ≤ a := ih hs.of_cons ha' c hc
            have hjc : j < c := (List.rel_of_sorted_cons hs) _ hc
            omega
          · exact ih hs.of_cons ha' j h

lemma firstAlnum_iff {v : List Char} {i : Nat} (h : i < v.length) :
    firstAlnum v i ↔ (alnum_indices v).head? = some i := by
  constructor
  · rintro ⟨hal, hmin⟩
    have hi : i ∈ alnum_indices v := mem_alnum_indices.mpr ⟨h, hal⟩
    have hne : alnum_indices v ≠ [] := List.ne_nil_of_mem hi
    rcases ha' : (alnum_indices v).head? with _ | a
    · rw [List.head?_eq_none_iff] at ha'
      exact absurd ha' hne
    · have hamem : a ∈ alnum_indices v := List.mem_of_mem_head? (by rw [ha']; rfl)
      have hale : a ≤ i := sorted_head?_le (alnum_indices_sorted v) ha' hi
      rcases lt_or_eq_of_le hale with hlt | heq
      · obtain ⟨_, haal⟩ := mem_alnum_indices.mp hamem
        exact absurd haal (hmin a hlt)
      · rw [heq]
  · intro ha
    have hi : i ∈ alnum_indices v := List.mem_of_mem_head? (by rw [ha]; rfl)
    obtain ⟨hlen, hal⟩ := mem_alnum_indices.mp hi
    refine ⟨hal, fun j hj hjal => ?_⟩
    have hjlen : j < v.length := lt_trans hj hlen
    have hjm : j ∈ alnum_indices v := mem_alnum_indices.mpr ⟨hjlen, hjal⟩
    have : i ≤ j := sorted_head?_le (alnum_indices_sorted v) ha hjm
    omega

lemma lastAlnum_iff {v : List Char} {i : Nat} (h : i < v.length) :
    lastAlnum v i ↔ (alnum_indices v).getLast? = some i := by
  constructor
  · rintro ⟨hal, hmax⟩
    have hi : i ∈ alnum_indices v := mem_alnum_indices.mpr ⟨h, hal⟩
    have hne : alnum_indices v ≠ [] := List.ne_nil_of_mem hi
    rcases ha' : (alnum_indices v).getLast? with _ | a
    · rw [List.getLast?_eq_none_iff] at ha'
      exact absurd ha' hne
    · have hamem : a ∈ alnum_indices v := List.mem_of_mem_getLast? (by rw [ha']; rfl)
      have hale : i ≤ a := sorted_le_getLast? (alnum_indices_sorted v) ha' i hi
      rcases lt_or_eq_of_le hale with hlt | heq
      · obtain ⟨halen, haal⟩ := mem_alnum_indices.mp hamem
        exact absurd haal (hmax a halen hlt)
      · rw [heq]
  · intro ha
    have hi : i ∈ alnum_indices v := List.mem_of_mem_getLast? (by rw [ha]; rfl)
    obtain ⟨hlen, hal⟩ := mem_alnum_indices.mp hi
    refine ⟨hal, fun j hjlen hj hjal => ?_⟩
    have hjm : j ∈ alnum_indices v := mem_alnum_indices.mpr ⟨hjlen, hjal⟩
    have : j ≤ i := sorted_le_getLast? (alnum_indices_sorted v) ha j hjm
    omega

lemma mem_mid_iff {l : List Nat} (hnd : l.Nodup) (i : Nat) :
    i ∈ (l.drop 1).dropLast ↔
      (i ∈ l ∧ l.head? ≠ some i ∧ l.getLast? ≠ some i) := by
  cases l with
  | nil => simp
  | cons a t =>
      cases t with
      | nil =>
          simp only [List.drop_succ_cons, List.drop_zero]
          constructor
          · intro hmem
            simp at hmem
          · rintro ⟨hmem, hhead, _⟩
            simp only [List.mem_singleton] at hmem
            exact absurd (by simp [hmem]) hhead
      | cons b u =>
          have htne : (b :: u) ≠ ([] : List Nat) := by simp
          have hd : (b :: u).dropLast ++ [(b :: u).getLast htne] = b :: u :=
            List.dropLast_append_getLast htne
          have hnotmem : a ∉ b :: u := (List.nodup_cons.mp hnd).1
          have hndt : (b :: u).Nodup := (List.nodup_cons.mp hnd).2
          have hlastnot : (b :: u).getLast htne ∉ (b :: u).dropLast := by
            intro hmem
            have hnd2 : ((b :: u).dropLast ++ [(b :: u).getLast htne]).Nodup := by
              rw [hd]; exact hndt
            rw [List.nodup_append] at hnd2
            exact hnd2.2.2 hmem (List.mem_singleton_self _)
          simp only [List.drop_succ_cons, List.drop_zero]
          constructor
          · intro hmem
            have hmemt : i ∈ b :: u := by
              have hmm : i ∈ (b :: u).dropLast ++ [(b :: u).getLast htne] :=
                List.mem_append_left _ hmem
              rwa [hd] at hmm
            refine ⟨List.mem_cons_of_mem _ hmemt, ?_, ?_⟩
            · intro hh
              have : a = i := by simpa using hh
              exact hnotmem (this ▸ hmemt)
            · intro hh
              have hl : (b :: u).getLast htne = i := by
                rw [List.getLast?_cons_cons,
                    List.getLast?_eq_getLast (b :: u) htne] at hh
                simpa using hh
              exact hlastnot (hl ▸ hmem)
          · rintro ⟨hmem, hhead, hlast⟩
            have hmemt : i ∈ b :: u := by
              rcases List.mem_cons.mp hmem with h | h
              · exact absurd (by simp [h]) hhead
              · exact h
            have : i ∈ (b :: u).dropLast ∨ i ∈ [(b :: u).getLast htne] := by
              rw [← List.mem_append, hd]; exact hmemt
            rcases this with h | h
            · exact h
            · exfalso
              have hi : i = (b :: u).getLast htne := by simpa using h
              apply hlast
              rw [List.getLast?_cons_cons,
                  List.getLast?_eq_getLast (b :: u) htne, hi]

lemma mask_nonalnum_getD {v : List Char} {i : Nat} (h : i < v.length)
    (hna : isAlnum (v.getD i ' ') = false) :
    (format_preserving_mask v).getD i ' ' = v.getD i ' ' := by
  rw [format_preserving_mask_getD v i h]
  split
  · rw [hna]; simp
  · rw [if_neg ?_]
    intro hmem
    have hsub : i ∈ alnum_indices v := by
      have h1 : ((alnum_indices v).drop 1).dropLast.Sublist (alnum_indices v) :=
        ((alnum_indices v).drop 1).dropLast_sublist.trans
          ((alnum_indices v).drop_sublist 1)
      exact h1.subset hmem
    obtain ⟨_, hal⟩ := mem_alnum_indices.mp hsub
    rw [hna] at hal
    cases hal

lemma mask_gt2_getD (v : List Char) (i : Nat) (h : i < v.length)
    (h2 : 2 < (alnum_indices v).length) :
    (format_preserving_mask v).getD i ' ' =
      if isAlnum (v.getD i ' ') = true ∧ ¬ firstAlnum v i ∧ ¬ lastAlnum v i
      then MASK_CHAR else v.getD i ' ' := by
  rw [format_preserving_mask_getD v i h, if_neg (by omega)]
  have hiff : i ∈ ((alnum_indices v).drop 1).dropLast ↔
      (isAlnum (v.getD i ' ') = true ∧ ¬ firstAlnum v i ∧ ¬ lastAlnum v i) := by
    rw [mem_mid_iff (alnum_indices_nodup v) i]
    constructor
    · rintro ⟨hm, hh, hl⟩
      obtain ⟨_, hal⟩ := mem_alnum_indices.mp hm
      refine ⟨hal, ?_, ?_⟩
      · intro hf; exact hh ((firstAlnum_iff h).mp hf)
      · intro hf; exact hl ((lastAlnum_iff h).mp hf)
    · rintro ⟨hal, hh, hl⟩
      refine ⟨mem_alnum_indices.mpr ⟨h, hal⟩, ?_, ?_⟩
      · intro hs; exact hh ((firstAlnum_iff h).mpr hs)
      · intro hs; exact hl ((lastAlnum_iff h).mpr hs)
  by_cases hc : isAlnum (v.getD i ' ') = true ∧ ¬ firstAlnum v i ∧ ¬ lastAlnum v i
  · rw [if_pos (hiff.mpr hc), if_pos hc]
  · rw [if_neg (fun hm => hc (hiff.mp hm)), if_neg hc]

lemma maskAllAlnum_no_alnum (v : List Char) :
    ∀ c ∈ maskAllAlnum v, isAlnum c = false := by
  intro c hc
  obtain ⟨a, _, rfl⟩ := List.mem_map.mp hc
  by_cases ha : isAlnum a = true
  · rw [if_pos ha]; decide
  · rw [if_neg ha]; simpa using ha

lemma mask_of_no_alnum {w : List Char} (hw : ∀ c ∈ w, isAlnum c = false) :
    format_preserving_mask w = w := by
  unfold format_preserving_mask
  rcases eq_or_ne w [] with h | h
  · rw [if_pos h]
  · rw [if_neg h]
    have hidx : alnum_indices w = [] := by
      unfold alnum_indices
      rw [List.filter_eq_nil_iff]
      intro a ha
      have halen : a < w.length := List.mem_range.mp ha
      have hmem : w.getD a ' ' ∈ w := by
        rw [List.getD_eq_getElem _ _ halen]
        exact List.getElem_mem _
      intro hcontra
      have hb : isAlnum (w.getD a ' ') = true := hcontra
      rw [hw _ hmem] at hb
      cases hb
    rw [hidx]
    rw [if_pos (by simp)]
    unfold maskAllAlnum
    have : ∀ c ∈ w, (if isAlnum c then MASK_CHAR else c) = c := by
      intro c hc
      rw [if_neg (by simp [hw c hc])]
    rw [List.map_congr_left this]
    simp

lemma mask_le2 {v : List Char} (hc : (alnum_indices v).length ≤ 2) :
    format_preserving_mask v = maskAllAlnum v := by
  unfold format_preserving_mask
  rcases eq_or_ne v [] with h | h
  · subst h; rfl
  · rw [if_neg h, if_pos hc]

-- ---------------------------------------------------------------
-- Claims C1 and C4
-- ---------------------------------------------------------------

/-- Claim C1: the format-preserving mask keeps the output length equal to
the input length; with at most two alphanumeric characters every
alphanumeric position becomes the mask character and every other position
is unchanged; with more than two, the first and last alphanumeric
characters are preserved, the alphanumerics strictly between them become
the mask character, non-alphanumerics are untouched; and masking
"123-45-6789" yields "1**-**-***9". -/
theorem c1_format_preserving_mask_spec :
    (∀ v : List Char, (format_preserving_mask v).length = v.length)
    ∧ (∀ (v : List Char) (i : Nat), i < v.length →
        (v.filter (fun c => isAlnum c)).length ≤ 2 →
        (format_preserving_mask v).getD i ' ' =
          (if isAlnum (v.getD i ' ') = true then MASK_CHAR
           else v.getD i ' '))
    ∧ (∀ (v : List Char) (i : Nat), i < v.length →
        2 < (v.filter (fun c => isAlnum c)).length →
        (format_preserving_mask v).getD i ' ' =
          (if isAlnum (v.getD i ' ') = true
              ∧ ¬ firstAlnum v i ∧ ¬ lastAlnum v i
           then MASK_CHAR else v.getD i ' '))
    ∧ format_preserving_mask ("123-45-6789".data) = ("1**-**-***9".data) := by
  refine ⟨format_preserving_mask_length, ?_, ?_, by decide⟩
  · intro v i h hcnt
    rw [format_preserving_mask_getD v i h,
        if_pos (by rw [alnum_indices_length]; exact hcnt)]
  · intro v i h hcnt
    exact mask_gt2_getD v i h (by rw [alnum_indices_length]; exact hcnt)

/-- Witness for C1 at the concrete input "123-45-6789", position 1. -/
theorem c1_witness :
    (1 < ("123-45-6789".data).length ∧
      2 < (("123-45-6789".data).filter (fun c => isAlnum c)).length)
    ∧ (format_preserving_mask ("123-45-6789".data)).getD 1 ' ' =
        (if isAlnum (("123-45-6789".data).getD 1 ' ') = true
            ∧ ¬ firstAlnum ("123-45-6789".data) 1
            ∧ ¬ lastAlnum ("123-45-6789".data) 1
         then MASK_CHAR else ("123-45-6789".data).getD 1 ' ') :=
  ⟨⟨by decide, by decide⟩,
   c1_format_preserving_mask_spec.2.2.1 ("123-45-6789".data) 1
     (by decide) (by decide)⟩

/-- Counterexample to claim C4: the format-preserving mask is not
idempotent.  "abc" is masked to "a*c", which has only two alphanumeric
characters left, so a second application masks the preserved first and
last characters as well, giving "***". -/
theorem c4_counterexample :
    format_preserving_mask (format_preserving_mask ("abc".data)) ≠
      format_preserving_mask ("abc".data) := by decide

/-- Claim C4, amended: re-masking an already-masked character gives the
same character (a mask character is left unchanged by any further
application), and the mask is idempotent on strings with at most two
alphanumeric characters; but, as the counterexample shows, it is not
idempotent on strings with more than two alphanumeric characters, whose
preserved first and last characters a second application masks. -/
theorem c4_mask_idempotence_amended :
    (∀ v : List Char, (v.filter (fun c => isAlnum c)).length ≤ 2 →
        format_preserving_mask (format_preserving_mask v)
          = format_preserving_mask v)
    ∧ (∀ (v : List Char) (i : Nat), v.getD i ' ' = MASK_CHAR →
        (format_preserving_mask v).getD i ' ' = MASK_CHAR) := by
  constructor
  · intro v hcnt
    have h2 : (alnum_indices v).length ≤ 2 := by
      rw [alnum_indices_length]; exact hcnt
    rw [mask_le2 h2]
    exact mask_of_no_alnum (maskAllAlnum_no_alnum v)
  · intro v i hstar
    have h : i < v.length := by
      by_contra hn
      push_neg at hn
      rw [List.getD_eq_default _ _ hn] at hstar
      exact absurd hstar (by decide)
    have hna : isAlnum (v.getD i ' ') = false := by rw [hstar]; decide
    rw [mask_nonalnum_getD h hna, hstar]

/-- Witness for C4 (amended) at the concrete input "ab". -/
theorem c4_witness :
    (("ab".data).filter (fun c => isAlnum c)).length ≤ 2
    ∧ format_preserving_mask (format_preserving_mask ("ab".data))
        = format_preserving_mask ("ab".data) :=
  ⟨by decide, c4_mask_idempotence_amended.1 ("ab".data) (by decide)⟩

-- ---------------------------------------------------------------
-- Lemmas about the detector stages
-- ---------------------------------------------------------------

lemma half_eq : half = 1 / 2 := by
  unfold half; rw [Rat.mk'_eq_divInt]; norm_num [Rat.divInt_eq_div]

lemma q3o10_eq : q3o10 = 3 / 10 := by
  unfold q3o10; rw [Rat.mk'_eq_divInt]; norm_num [Rat.divInt_eq_div]

lemma q7o10_eq : q7o10 = 7 / 10 := by
  unfold q7o10; rw [Rat.mk'_eq_divInt]; norm_num [Rat.divInt_eq_div]

lemma q9o10_eq : q9o10 = 9 / 10 := by
  unfold q9o10; rw [Rat.mk'_eq_divInt]; norm_num [Rat.divInt_eq_div]

lemma primaryFiltered_mem {sent : List Char} {aws : List AwsEnt}
    {minc : ℚ} {e : Entity} (h : e ∈ primaryFiltered sent aws minc) :
    e.Source = "comprehend" := by
  unfold primaryFiltered at h
  obtain ⟨a, _, hfa⟩ := List.mem_filterMap.mp h
  dsimp only at hfa
  split at hfa
  · cases hfa
    rfl
  · cases hfa

lemma detect_dob_mem {s : List Char} {c : ℚ} {e : Entity}
    (h : e ∈ detect_dob_entities s c) :
    e.Source = "regex_fallback" ∧ e.Type' = "DATE_OF_BIRTH"
      ∧ e.Confidence = c := by
  unfold detect_dob_entities at h
  obtain ⟨pat, _, hm⟩ := List.mem_flatMap.mp h
  obtain ⟨be, _, rfl⟩ := List.mem_map.mp hm
  exact ⟨rfl, rfl, rfl⟩

lemma extract_regex_mem {t : List Char} {e : Entity}
    (h : e ∈ extract_regex_entities t) :
    e.Source = "regex_fallback" ∧ e.Confidence = 1 / 2
      ∧ (e.Type' = "EMAIL" ∨ e.Type' = "PHONE" ∨ e.Type' = "SSN"
          ∨ e.Type' = "ADDRESS") := by
  unfold extract_regex_entities at h
  obtain ⟨pt, hpt, hm⟩ := List.mem_flatMap.mp h
  obtain ⟨be, _, rfl⟩ := List.mem_map.mp hm
  refine ⟨rfl, half_eq, ?_⟩
  rcases List.mem_append.mp hpt with h1 | h1
  · simp only [List.mem_cons, List.not_mem_nil, or_false] at h1
    rcases h1 with rfl | rfl | rfl
    · exact Or.inl rfl
    · exact Or.inr (Or.inl rfl)
    · exact Or.inr (Or.inr (Or.inl rfl))
  · obtain ⟨p, _, rfl⟩ := List.mem_map.mp h1
    exact Or.inr (Or.inr (Or.inr rfl))

lemma dobStage_of_none {clean : List Char} {entities : List Entity}
    {minc : ℚ}
    (h : entities.any (fun e => e.Type' = "DATE_OF_BIRTH") = false) :
    dobStage clean entities minc
      = entities ++ detect_dob_entities clean minc := by
  unfold dobStage
  rw [if_neg (by simp [h])]

lemma dobStage_of_some {clean : List Char} {entities : List Entity}
    {minc : ℚ}
    (h : entities.any (fun e => e.Type' = "DATE_OF_BIRTH") = true) :
    dobStage clean entities minc = entities := by
  unfold dobStage
  rw [if_pos h]

-- ---------------------------------------------------------------
-- Claims C2, C3, C8, C9 (detector aggregation)
-- ---------------------------------------------------------------

/-- Counterexample to claim C2: the pipeline contains no secondary local
NER detector.  For a sentence that plainly carries a person name, with an
empty primary-detector response, the merged entity list is empty — in
particular no entity of type NAME mapped from a local NER category is
included. -/
theorem c2_counterexample :
    mergedEntities ("Call John Smith".data) [] (1 / 2) = [] := by
  rw [← half_eq]; decide

/-- Claim C2, amended: no secondary local NER detector exists in the
pipeline.  Every entity of the merged list handed to the masker comes
either from the primary remote detector (source "comprehend") or from the
pattern detectors (source "regex_fallback"); no other source occurs. -/
theorem c2_no_secondary_ner (sent : List Char) (aws : List AwsEnt)
    (minc : ℚ) (e : Entity) (h : e ∈ mergedEntities sent aws minc) :
    e.Source = "comprehend" ∨ e.Source = "regex_fallback" := by
  unfold mergedEntities at h
  rcases List.mem_append.mp h with h1 | h1
  · unfold dobStage at h1
    split at h1
    · exact Or.inl (primaryFiltered_mem h1)
    · rcases List.mem_append.mp h1 with h2 | h2
      · exact Or.inl (primaryFiltered_mem h2)
      · exact Or.inr (detect_dob_mem h2).1
  · exact Or.inr (extract_regex_mem h1).1

/-- Witness for C2 (amended): the SSN pattern entity detected in
"123-45-6789" is in the merged list, and its source is one of the two. -/
theorem c2_witness :
    ({ Type' := "SSN", Text := "123-45-6789".data, Confidence := 1 / 2,
       BeginOffset := 0, EndOffset := 11, Source := "regex_fallback",
       Anchored := none } : Entity) ∈
        mergedEntities ("123-45-6789".data) [] (1 / 2)
    ∧ (({ Type' := "SSN", Text := "123-45-6789".data, Confidence := 1 / 2,
          BeginOffset := 0, EndOffset := 11, Source := "regex_fallback",
          Anchored := none } : Entity).Source = "comprehend"
        ∨ ({ Type' := "SSN", Text := "123-45-6789".data, Confidence := 1 / 2,
             BeginOffset := 0, EndOffset := 11, Source := "regex_fallback",
             Anchored := none } : Entity).Source = "regex_fallback") := by
  have hm : Entity.mk "SSN" ("123-45-6789".data) half 0 11
        "regex_fallback" none ∈
        mergedEntities ("123-45-6789".data) [] half := by decide
  rw [← half_eq]
  exact ⟨hm, c2_no_secondary_ner ("123-45-6789".data) [] half _ hm⟩

/-- Counterexample to claim C3: the acceptance filter is never applied on
the DOB fallback path.  In "I was born on January 5, 1990" the spelled
month pattern matches; accept_entity rejects that entity (it has no
date-like digit pattern), yet the merged list contains exactly it. -/
theorem c3_counterexample :
    mergedEntities ("I was born on January 5, 1990".data) [] (1 / 2)
      = [{ Type' := "DATE_OF_BIRTH", Text := "January 5, 1990".data,
           Confidence := 1 / 2, BeginOffset := 14, EndOffset := 29,
           Source := "regex_fallback", Anchored := some true }]
    ∧ accept_entity
        { Type' := "DATE_OF_BIRTH", Text := "January 5, 1990".data,
          Confidence := 1 / 2, BeginOffset := 14, EndOffset := 29,
          Source := "regex_fallback", Anchored := some true } = false := by
  rw [← half_eq]
  exact ⟨by decide, by decide⟩

/-- Claim C3, amended: the DOB pattern-fallback output is appended
without any acceptance filtering.  Whenever no DATE_OF_BIRTH entity
survives the primary stage, the merged list is exactly the primary
entities, followed by all DOB pattern matches (filtered by nothing, so
spelled-month matches lacking a date-like digit pattern are included),
followed by the EMAIL/PHONE/SSN/ADDRESS pattern entities. -/
theorem c3_dob_fallback_unfiltered (sent : List Char) (aws : List AwsEnt)
    (minc : ℚ)
    (h : (primaryFiltered sent aws minc).any
          (fun e => e.Type' = "DATE_OF_BIRTH") = false) :
    mergedEntities sent aws minc
      = primaryFiltered sent aws minc
        ++ detect_dob_entities (remove_fillers sent) minc
        ++ extract_regex_entities (remove_fillers sent) := by
  unfold mergedEntities
  rw [dobStage_of_none h, List.append_assoc]

/-- Witness for C3 (amended) at the spelled-month sentence with an empty
primary response. -/
theorem c3_witness :
    ((primaryFiltered ("I was born on January 5, 1990".data) [] (1 / 2)).any
        (fun e => e.Type' = "DATE_OF_BIRTH") = false)
    ∧ mergedEntities ("I was born on January 5, 1990".data) [] (1 / 2)
        = primaryFiltered ("I was born on January 5, 1990".data) [] (1 / 2)
          ++ detect_dob_entities
              (remove_fillers ("I was born on January 5, 1990".data)) (1 / 2)
          ++ extract_regex_entities
              (remove_fillers ("I was born on January 5, 1990".data)) := by
  rw [← half_eq]
  exact ⟨by decide,
    c3_dob_fallback_unfiltered ("I was born on January 5, 1990".data) []
      half (by decide)⟩

/-- Counterexample to claim C8: the DOB fallback entities carry the
caller-supplied threshold as their confidence, so the fallback
contribution differs between two thresholds even with the identical
(empty) primary response. -/
theorem c8_counterexample :
    mergedEntities ("01/02/1990".data) [] (3 / 10)
      ≠ mergedEntities ("01/02/1990".data) [] (7 / 10) := by
  rw [← q3o10_eq, ← q7o10_eq]; decide

/-- Claim C8, amended: the EMAIL/PHONE/SSN/ADDRESS pattern detectors are
threshold-independent — their contribution is the suffix
extract_regex_entities of the merged list for every threshold, and each
of their entities carries the default confidence 0.5; the DOB fallback
entities, however, carry the supplied threshold as their confidence
rather than 0.5. -/
theorem c8_threshold_scope :
    (∀ (t : List Char) (e : Entity), e ∈ extract_regex_entities t →
        e.Confidence = 1 / 2 ∧ e.Source = "regex_fallback")
    ∧ (∀ (s : List Char) (c : ℚ) (e : Entity),
        e ∈ detect_dob_entities s c → e.Confidence = c)
    ∧ (∀ (sent : List Char) (aws : List AwsEnt) (c : ℚ),
        List.IsSuffix (extract_regex_entities (remove_fillers sent))
          (mergedEntities sent aws c)) := by
  refine ⟨?_, ?_, ?_⟩
  · intro t e h
    obtain ⟨h1, h2, _⟩ := extract_regex_mem h
    exact ⟨h2, h1⟩
  · intro s c e h
    exact (detect_dob_mem h).2.2
  · intro sent aws c
    unfold mergedEntities
    exact List.suffix_append _ _

/-- Witness for C8 (amended): the entities of "01/02/1990". -/
theorem c8_witness :
    ({ Type' := "DATE_OF_BIRTH", Text := "01/02/1990".data,
       Confidence := 3 / 10, BeginOffset := 0, EndOffset := 10,
       Source := "regex_fallback", Anchored := some false } : Entity)
      ∈ detect_dob_entities ("01/02/1990".data) (3 / 10)
    ∧ ({ Type' := "DATE_OF_BIRTH", Text := "01/02/1990".data,
         Confidence := 3 / 10, BeginOffset := 0, EndOffset := 10,
         Source := "regex_fallback", Anchored := some false } : Entity).Confidence
        = 3 / 10 := by
  have hm : Entity.mk "DATE_OF_BIRTH" ("01/02/1990".data) q3o10 0 10
        "regex_fallback" (some false)
        ∈ detect_dob_entities ("01/02/1990".data) q3o10 := by decide
  rw [← q3o10_eq]
  exact ⟨hm, c8_threshold_scope.2.1 ("01/02/1990".data) q3o10 _ hm⟩

/-- Claim C9: the DOB pattern fallback fires only when no DATE_OF_BIRTH
entity survived the primary stage.  When a threshold-surviving primary
DATE_OF_BIRTH entity exists, the merged list consists only of the primary
entities and the EMAIL/PHONE/SSN/ADDRESS pattern entities — no DOB
pattern entity is appended, and every DATE_OF_BIRTH entity in the merged
list comes from the primary detector. -/
theorem c9_dob_fallback_guard (sent : List Char) (aws : List AwsEnt)
    (minc : ℚ)
    (h : (primaryFiltered sent aws minc).any
          (fun e => e.Type' = "DATE_OF_BIRTH") = true) :
    mergedEntities sent aws minc
      = primaryFiltered sent aws minc
        ++ extract_regex_entities (remove_fillers sent)
    ∧ ∀ e ∈ mergedEntities sent aws minc,
        e.Type' = "DATE_OF_BIRTH" → e.Source = "comprehend" := by
  have heq : mergedEntities sent aws minc
      = primaryFiltered sent aws minc
        ++ extract_regex_entities (remove_fillers sent) := by
    unfold mergedEntities
    rw [dobStage_of_some h]
  refine ⟨heq, ?_⟩
  intro e he hty
  rw [heq] at he
  rcases List.mem_append.mp he with h1 | h1
  · exact primaryFiltered_mem h1
  · obtain ⟨_, _, hor⟩ := extract_regex_mem h1
    rcases hor with h2 | h2 | h2 | h2 <;> rw [hty] at h2 <;>
      exact absurd h2 (by decide)

/-- Witness for C9 at a concrete primary response carrying a
DATE_OF_BIRTH entity above the threshold. -/
theorem c9_witness :
    ((primaryFiltered ("01/02/1990 x".data)
        [{ Type' := "DATE_OF_BIRTH", Score := 9 / 10, BeginOffset := 0,
           EndOffset := 10 }] (1 / 2)).any
        (fun e => e.Type' = "DATE_OF_BIRTH") = true)
    ∧ mergedEntities ("01/02/1990 x".data)
        [{ Type' := "DATE_OF_BIRTH", Score := 9 / 10, BeginOffset := 0,
           EndOffset := 10 }] (1 / 2)
        = primaryFiltered ("01/02/1990 x".data)
            [{ Type' := "DATE_OF_BIRTH", Score := 9 / 10, BeginOffset := 0,
               EndOffset := 10 }] (1 / 2)
          ++ extract_regex_entities
              (remove_fillers ("01/02/1990 x".data)) := by
  rw [← half_eq, ← q9o10_eq]
  exact ⟨by decide,
    (c9_dob_fallback_guard ("01/02/1990 x".data)
      [{ Type' := "DATE_OF_BIRTH", Score := q9o10, BeginOffset := 0,
         EndOffset := 10 }] half (by decide)).1⟩

-- ---------------------------------------------------------------
-- Claims C6 and C7 (error handling)
-- ---------------------------------------------------------------

/-- Claim C6: an exception from the primary remote detector is treated
exactly as a zero-entity response: the per-record result is identical to
the one computed from an empty entity list (so the record is still masked
by the fallback detectors), and the whole pipeline applied with an
always-failing detector equals the pipeline applied with an
always-empty detector — no error ever propagates, a masked output is
always returned. -/
theorem c6_remote_failure_soft (now : String) (minc : ℚ) :
    (∀ (sent : List Char) (vid : Nat) (e : Unit),
        processRecord now minc (Except.error e) sent vid
          = processRecord now minc (Except.ok []) sent vid)
    ∧ (∀ records : List Rec,
        mask_pii_with_comprehend (fun _ => Except.error ()) now records minc
          = mask_pii_with_comprehend (fun _ => Except.ok []) now records
              minc) := by
  have h1 : ∀ (sent : List Char) (vid : Nat) (e : Unit),
      processRecord now minc (Except.error e) sent vid
        = processRecord now minc (Except.ok []) sent vid := by
    intro sent vid e; rfl
  refine ⟨h1, ?_⟩
  intro records
  induction records with
  | nil => rfl
  | cons r rest ih =>
      simp only [mask_pii_with_comprehend]
      rw [ih]
      by_cases hskip : r.sentence = [] ∨ r.verbatim_id = none
      · rw [if_pos hskip, if_pos hskip]
      · rw [if_neg hskip, if_neg hskip]
        rcases hv : r.verbatim_id with _ | vid
        · rfl
        · simp only [hv]
          rw [h1]

/-- Claim C7: a record with an empty (or missing) sentence or a missing
verbatim_id is skipped entirely: wherever it sits in the input list, it
reappears unchanged at the same position of the output list, contributes
no audit rows, and no error is raised (the function is total). -/
theorem c7_malformed_record_skipped
    (detect : List Char → Except Unit (List AwsEnt)) (now : String)
    (minc : ℚ) (pre post : List Rec) (r : Rec)
    (h : r.sentence = [] ∨ r.verbatim_id = none) :
    mask_pii_with_comprehend detect now (pre ++ r :: post) minc
      = ((mask_pii_with_comprehend detect now pre minc).1
          ++ r :: (mask_pii_with_comprehend detect now post minc).1,
         (mask_pii_with_comprehend detect now pre minc).2
          ++ (mask_pii_with_comprehend detect now post minc).2) := by
  induction pre with
  | nil =>
      rw [List.nil_append]
      simp only [mask_pii_with_comprehend]
      rw [if_pos h]
      simp
  | cons a pre ih =>
      rw [List.cons_append]
      simp only [mask_pii_with_comprehend]
      rw [ih]
      by_cases hskip : a.sentence = [] ∨ a.verbatim_id = none
      · rw [if_pos hskip, if_pos hskip]
        simp
      · rw [if_neg hskip, if_neg hskip]
        rcases hv : a.verbatim_id with _ | vid
        · simp
        · simp only [hv]
          simp

/-- Witness for C7: one malformed record between two well-formed ones. -/
theorem c7_witness :
    (({ sentence := [], verbatim_id := some 5 } : Rec).sentence = []
      ∨ ({ sentence := [], verbatim_id := some 5 } : Rec).verbatim_id = none)
    ∧ mask_pii_with_comprehend (fun _ => Except.ok []) "t"
        ([{ sentence := "ab".data, verbatim_id := some 1 }]
          ++ ({ sentence := [], verbatim_id := some 5 } : Rec)
            :: [{ sentence := "cd".data, verbatim_id := some 2 }]) (1 / 2)
      = ((mask_pii_with_comprehend (fun _ => Except.ok []) "t"
            [{ sentence := "ab".data, verbatim_id := some 1 }] (1 / 2)).1
          ++ ({ sentence := [], verbatim_id := some 5 } : Rec)
            :: (mask_pii_with_comprehend (fun _ => Except.ok []) "t"
                [{ sentence := "cd".data, verbatim_id := some 2 }] (1 / 2)).1,
         (mask_pii_with_comprehend (fun _ => Except.ok []) "t"
            [{ sentence := "ab".data, verbatim_id := some 1 }] (1 / 2)).2
          ++ (mask_pii_with_comprehend (fun _ => Except.ok []) "t"
               [{ sentence := "cd".data, verbatim_id := some 2 }] (1 / 2)).2) :=
  ⟨Or.inl rfl,
   c7_malformed_record_skipped (fun _ => Except.ok []) "t" (1 / 2)
     [{ sentence := "ab".data, verbatim_id := some 1 }]
     [{ sentence := "cd".data, verbatim_id := some 2 }]
     { sentence := [], verbatim_id := some 5 } (Or.inl rfl)⟩

-- ---------------------------------------------------------------
-- Span bounds of the match engine, and claim C10
-- ---------------------------------------------------------------

lemma remove_fillers_length (t : List Char) :
    (remove_fillers t).length = t.length := by
  simp [remove_fillers]

lemma matchEnds_bounds (s : List Char) :
    ∀ (fuel : Nat) (re : RE) (i j : Nat), j ∈ matchEnds s fuel re i →
      i ≤ j ∧ j ≤ max i s.length := by
  intro fuel
  induction fuel with
  | zero =>
      intro re i j hj
      cases hj
  | succ fuel ih =>
      intro re i j hj
      cases re with
      | eps =>
          have hji : j = i := by simpa [matchEnds] using hj
          omega
      | pred p =>
          unfold matchEnds at hj
          split at hj
          · split at hj
            · have hji : j = i + 1 := by simpa using hj
              rename_i hlen hp
              omega
            · cases hj
          · cases hj
      | wordB =>
          unfold matchEnds at hj
          split at hj
          · have hji : j = i := by simpa using hj
            omega
          · cases hj
      | cat a b =>
          unfold matchEnds at hj
          obtain ⟨k, hk, hjk⟩ := List.mem_flatMap.mp hj
          have h1 := ih a i k hk
          have h2 := ih b k j hjk
          omega
      | alt a b =>
          unfold matchEnds at hj
          rcases List.mem_append.mp hj with h1 | h1
          · exact ih a i j h1
          · exact ih b i j h1
      | rep mn mx a =>
          unfold matchEnds at hj
          split at hj
          · split at hj
            · have hji : j = i := by simpa using hj
              omega
            · cases hj
          · have hdeep : ∀ j, j ∈ (matchEnds s fuel a i).flatMap
                (fun k => matchEnds s fuel
                  (.rep (mn - 1) (mx.map (fun m => m - 1)) a) k) →
                i ≤ j ∧ j ≤ max i s.length := by
              intro j hj
              obtain ⟨k, hk, hjk⟩ := List.mem_flatMap.mp hj
              have h1 := ih a i k hk
              have h2 := ih _ k j hjk
              omega
            split at hj
            · rcases List.mem_append.mp hj with h1 | h1
              · exact hdeep j h1
              · have hji : j = i := by simpa using h1
                omega
            · exact hdeep j hj

lemma searchAux_bounds (s : List Char) (fuel : Nat) (re : RE) :
    ∀ (k i b e : Nat), i + k ≤ s.length + 1 →
      searchAux s fuel re k i = some (b, e) →
      b ≤ e ∧ e ≤ s.length := by
  intro k
  induction k with
  | zero => intro i b e _ h; cases h
  | succ k ih =>
      intro i b e hik h
      unfold searchAux at h
      cases hm : matchEnds s fuel re i with
      | nil =>
          rw [hm] at h
          exact ih (i + 1) b e (by omega) h
      | cons j tl =>
          rw [hm] at h
          have hbe : b = i ∧ e = j := by
            have := h
            simp only [Option.some.injEq, Prod.mk.injEq] at this
            exact ⟨this.1.symm, this.2.symm⟩
          obtain ⟨rfl, rfl⟩ := hbe
          have hmem : e ∈ matchEnds s fuel re b := by
            rw [hm]; exact List.mem_cons_self _ _
          have hb := matchEnds_bounds s fuel re b e hmem
          omega

lemma finditerAux_bounds (s : List Char) (fuel : Nat) (re : RE) :
    ∀ (k i b e : Nat), (b, e) ∈ finditerAux s fuel re k i →
      b ≤ e ∧ e ≤ s.length := by
  intro k
  induction k with
  | zero => intro i b e h; cases h
  | succ k ih =>
      intro i b e h
      unfold finditerAux at h
      cases hs : searchAux s fuel re (s.length + 1 - i) i with
      | none => rw [hs] at h; cases h
      | some be =>
          rw [hs] at h
          obtain ⟨b', e'⟩ := be
          have hne : s.length + 1 - i ≠ 0 := by
            intro h0
            rw [h0] at hs
            simp [searchAux] at hs
          have hbd := searchAux_bounds s fuel re (s.length + 1 - i) i b' e'
            (by omega) hs
          rcases List.mem_cons.mp h with h1 | h1
          · have : b = b' ∧ e = e' := by
              simpa [Prod.mk.injEq] using h1
            obtain ⟨rfl, rfl⟩ := this
            exact hbd
          · exact ih _ b e h1

lemma finditer_bounds {s : List Char} {re : RE} {b e : Nat}
    (h : (b, e) ∈ finditer s re) : b ≤ e ∧ e ≤ s.length :=
  finditerAux_bounds s (fuelFor s re) re (s.length + 2) 0 b e h

lemma slice_length {l : List Char} {b e : Nat} (hbe : b ≤ e)
    (heL : e ≤ l.length) : (slice l b e).length = e - b := by
  simp only [slice, List.length_drop, List.length_take]
  omega

lemma detect_dob_WF {clean : List Char} {c : ℚ} {e : Entity}
    (h : e ∈ detect_dob_entities clean c) : entWF clean.length e := by
  unfold detect_dob_entities at h
  obtain ⟨pat, _, hm⟩ := List.mem_flatMap.mp h
  obtain ⟨be, hbe, rfl⟩ := List.mem_map.mp hm
  obtain ⟨h1, h2⟩ := finditer_bounds hbe
  exact ⟨slice_length h1 h2, h1, h2⟩

lemma extract_regex_WF {clean : List Char} {e : Entity}
    (h : e ∈ extract_regex_entities clean) : entWF clean.length e := by
  unfold extract_regex_entities at h
  obtain ⟨pt, _, hm⟩ := List.mem_flatMap.mp h
  obtain ⟨be, hbe, rfl⟩ := List.mem_map.mp hm
  obtain ⟨h1, h2⟩ := finditer_bounds hbe
  exact ⟨slice_length h1 h2, h1, h2⟩

lemma primaryFiltered_WF {sent : List Char} {aws : List AwsEnt} {minc : ℚ}
    (hb : ∀ a ∈ aws, a.BeginOffset ≤ a.EndOffset
        ∧ a.EndOffset ≤ sent.length) :
    ∀ e ∈ primaryFiltered sent aws minc, entWF sent.length e := by
  intro e h
  unfold primaryFiltered at h
  obtain ⟨a, ha, hfa⟩ := List.mem_filterMap.mp h
  dsimp only at hfa
  split at hfa
  · cases hfa
    obtain ⟨h1, h2⟩ := hb a ha
    exact ⟨slice_length h1 h2, h1, h2⟩
  · cases hfa

lemma mergedEntities_WF {sent : List Char} {aws : List AwsEnt} {minc : ℚ}
    (hb : ∀ a ∈ aws, a.BeginOffset ≤ a.EndOffset
        ∧ a.EndOffset ≤ sent.length) :
    ∀ e ∈ mergedEntities sent aws minc, entWF sent.length e := by
  intro e h
  unfold mergedEntities at h
  have hclean : (remove_fillers sent).length = sent.length :=
    remove_fillers_length sent
  rcases List.mem_append.mp h with h1 | h1
  · unfold dobStage at h1
    split at h1
    · exact primaryFiltered_WF hb e h1
    · rcases List.mem_append.mp h1 with h2 | h2
      · exact primaryFiltered_WF hb e h2
      · have := detect_dob_WF h2
        rwa [hclean] at this
  · have := extract_regex_WF h1
    rwa [hclean] at this

lemma maskStep_fst_length {L : Nat} {vid : Nat} {now : String}
    {acc : List Char × List AuditRow} {e : Entity}
    (hacc : acc.1.length = L) (hwf : entWF L e) :
    (maskStep vid now acc e).1.length = L := by
  obtain ⟨ht, hbe, heL⟩ := hwf
  simp only [maskStep, List.length_append, List.length_take,
    List.length_drop, format_preserving_mask_length, ht, hacc]
  omega

lemma foldl_maskStep_length (vid : Nat) (now : String) :
    ∀ (es : List Entity) (acc : List Char × List AuditRow) (L : Nat),
      acc.1.length = L → (∀ e ∈ es, entWF L e) →
      ((es.foldl (maskStep vid now) acc).1.length = L) := by
  intro es
  induction es with
  | nil => intro acc L hacc _; exact hacc
  | cons e es ih =>
      intro acc L hacc hwf
      rw [List.foldl_cons]
      exact ih _ L (maskStep_fst_length hacc (hwf e (List.mem_cons_self _ _)))
        (fun x hx => hwf x (List.mem_cons_of_mem _ hx))

lemma foldl_maskStep_rows (vid : Nat) (now : String) :
    ∀ (es : List Entity) (acc : List Char × List AuditRow),
      (∀ r ∈ acc.2, r.masked.length = r.original.length) →
      ∀ r ∈ (es.foldl (maskStep vid now) acc).2,
        r.masked.length = r.original.length := by
  intro es
  induction es with
  | nil => intro acc hacc; exact hacc
  | cons e es ih =>
      intro acc hacc
      rw [List.foldl_cons]
      apply ih
      intro r hr
      rcases List.mem_append.mp hr with h1 | h1
      · exact hacc r h1
      · have h2 := List.mem_singleton.mp h1
        subst h2
        exact format_preserving_mask_length e.Text

/-- Claim C10: for a processed record whose primary-detector offsets all
lie inside the text, the masked sentence keeps exactly the length of the
original sentence, and every audit row carries a masked text of the same
length as its original text — overlapping spans included, because the
format-preserving mask never changes a span length and masking is applied
back to front. -/
theorem c10_length_invariant (now : String) (minc : ℚ)
    (resp : Except Unit (List AwsEnt)) (sent : List Char) (vid : Nat)
    (hb : ∀ a ∈ awsEntitiesOf resp,
        a.BeginOffset ≤ a.EndOffset ∧ a.EndOffset ≤ sent.length) :
    (processRecord now minc resp sent vid).1.length = sent.length
    ∧ ∀ row ∈ (processRecord now minc resp sent vid).2,
        row.masked.length = row.original.length := by
  constructor
  · apply foldl_maskStep_length vid now _ _ sent.length rfl
    intro e he
    have hmem : e ∈ mergedEntities sent (awsEntitiesOf resp) minc := by
      have hperm := List.perm_insertionSort byBeginDesc
        (mergedEntities sent (awsEntitiesOf resp) minc)
      exact hperm.mem_iff.mp he
    exact mergedEntities_WF hb e hmem
  · apply foldl_maskStep_rows
    intro r hr
    cases hr

/-- Witness for C10 at a concrete in-bounds primary response. -/
theorem c10_witness :
    (∀ a ∈ awsEntitiesOf (Except.ok
        [AwsEnt.mk "NAME" q9o10 0 4]),
      a.BeginOffset ≤ a.EndOffset
        ∧ a.EndOffset ≤ ("John called".data).length)
    ∧ ((processRecord "t" half
          (Except.ok [AwsEnt.mk "NAME" q9o10 0 4])
          ("John called".data) 3).1.length = ("John called".data).length
       ∧ ∀ row ∈ (processRecord "t" half
            (Except.ok [AwsEnt.mk "NAME" q9o10 0 4])
            ("John called".data) 3).2,
          row.masked.length = row.original.length) :=
  ⟨by decide,
   c10_length_invariant "t" half
     (Except.ok [AwsEnt.mk "NAME" q9o10 0 4])
     ("John called".data) 3 (by decide)⟩

end Redactor

namespace Metrics

lemma tallyLoop_eq (audit : List PredRow) :
    ∀ (data : List GTRecord) (acc : Nat × Nat × Nat),
      tallyLoop audit data acc
        = (acc.1 + (data.map (fun rec =>
              ((gtSet rec) ∩ (prSet audit rec.verbatim_id)).card)).sum,
           acc.2.1 + (data.map (fun rec =>
              ((prSet audit rec.verbatim_id) \ (gtSet rec)).card)).sum,
           acc.2.2 + (data.map (fun rec =>
              ((gtSet rec) \ (prSet audit rec.verbatim_id)).card)).sum) := by
  intro data
  induction data with
  | nil => intro acc; simp [tallyLoop]
  | cons rec rest ih =>
      intro acc
      have h1 : tallyLoop audit (rec :: rest) acc
          = tallyLoop audit rest
            (acc.1 + ((gtSet rec) ∩ (prSet audit rec.verbatim_id)).card,
             acc.2.1 + ((prSet audit rec.verbatim_id) \ (gtSet rec)).card,
             acc.2.2 + ((gtSet rec) \ (prSet audit rec.verbatim_id)).card) :=
        rfl
      rw [h1, ih]
      simp only [List.map_cons, List.sum_cons, Prod.mk.injEq]
      refine ⟨by omega, by omega, by omega⟩

/-- Claim C5: the accuracy scorer adds, record by record, the size of the
intersection of the canonical ground-truth pair set and the canonical
predicted pair set of the same verbatim_id to TP, the size of
predicted-minus-ground-truth to FP and the size of
ground-truth-minus-predicted to FN, under exact pair equality; precision,
recall and F1 follow the guarded ratio formulas; and the concrete example
of a ground truth (SSN, "123-45-6789") with an empty predicted set gives
TP=0, FP=0, FN=1 and all three ratios 0. -/
theorem c5_accuracy_scorer :
    (∀ (data : List GTRecord) (audit : List PredRow),
        (_compute_accuracy data audit).TP
          = (data.map (fun rec =>
              ((gtSet rec) ∩ (prSet audit rec.verbatim_id)).card)).sum
        ∧ (_compute_accuracy data audit).FP
          = (data.map (fun rec =>
              ((prSet audit rec.verbatim_id) \ (gtSet rec)).card)).sum
        ∧ (_compute_accuracy data audit).FN
          = (data.map (fun rec =>
              ((gtSet rec) \ (prSet audit rec.verbatim_id)).card)).sum
        ∧ (_compute_accuracy data audit).precision
          = (if (_compute_accuracy data audit).TP
                + (_compute_accuracy data audit).FP = 0 then 0
             else ((_compute_accuracy data audit).TP : ℚ)
               / (((_compute_accuracy data audit).TP : ℚ)
                  + ((_compute_accuracy data audit).FP : ℚ)))
        ∧ (_compute_accuracy data audit).recall'
          = (if (_compute_accuracy data audit).TP
                + (_compute_accuracy data audit).FN = 0 then 0
             else ((_compute_accuracy data audit).TP : ℚ)
               / (((_compute_accuracy data audit).TP : ℚ)
                  + ((_compute_accuracy data audit).FN : ℚ)))
        ∧ (_compute_accuracy data audit).f1
          = (if (_compute_accuracy data audit).precision
                + (_compute_accuracy data audit).recall' = 0 then 0
             else 2 * (_compute_accuracy data audit).precision
               * (_compute_accuracy data audit).recall'
               / ((_compute_accuracy data audit).precision
                  + (_compute_accuracy data audit).recall')))
    ∧ _compute_accuracy [GTRecord.mk 1 [GTEntity.mk "SSN" "123-45-6789"]] []
        = AccuracyResult.mk 0 0 1 0 0 0 := by
  constructor
  · intro data audit
    refine ⟨?_, ?_, ?_, rfl, rfl, rfl⟩
    · show (tallyLoop audit data (0, 0, 0)).1 = _
      rw [tallyLoop_eq audit data (0, 0, 0)]
      simp
    · show (tallyLoop audit data (0, 0, 0)).2.1 = _
      rw [tallyLoop_eq audit data (0, 0, 0)]
      simp
    · show (tallyLoop audit data (0, 0, 0)).2.2 = _
      rw [tallyLoop_eq audit data (0, 0, 0)]
      simp
  · have ht : tallyLoop []
        [GTRecord.mk 1 [GTEntity.mk "SSN" "123-45-6789"]] (0, 0, 0)
        = (0, 0, 1) := by decide
    unfold _compute_accuracy
    rw [ht]
    norm_num [precisionOf, recallOf, f1Of]

end Metrics
